import Mathlib

/-!
Verification of the redoxfs mount binary (src/bin/mount.rs): the
selector parser, the fork/pipe daemonizer and handshake, and the
daemon-side mount resolver loop, shallowly embedded as trace-producing
functions over an oracle environment for the external filesystem engine.
-/

namespace RedoxfsMount

/-- Disk selector, mirroring `enum DiskId` in src/bin/mount.rs
(lines 46-49): an explicit path, or a filesystem UUID.  A UUID value is
its 16-byte representation (`Uuid::as_bytes`), embedded as `List Nat`. -/
inductive DiskId where
  | path (p : String)
  | uuid (u : List Nat)
deriving DecidableEq

/-- Observable events of one daemon-side run, in program order.  Each
constructor mirrors one `println!`, channel `write` or `process::exit`
in `daemon` (src/bin/mount.rs lines 93-158):
`opening` = the "redoxfs: opening" log at the top of the candidate loop;
`openFail` = "failed to open image"; `fsOpenFail` = "failed to open
filesystem"; `fsOpened` = "opened filesystem ... with uuid" (carrying
the header UUID bytes); `uuidMatch`/`uuidMismatch` = the match logs;
`mountAttached` = the "mounted filesystem" log inside the readiness
callback; `chanWrite b ok` = `write.write(&[b])` whose result `ok` is
discarded by `let _ =`; `mountFailed` = "failed to mount";
`notAbleToMount` = the "not able to mount" log after the loop;
`procExit c` = `process::exit(c)`. -/
inductive Event where
  | opening (path : String)
  | openFail (path : String)
  | fsOpenFail (path : String)
  | fsOpened (path : String) (headerUuid : List Nat)
  | uuidMatch (path : String)
  | uuidMismatch (path : String)
  | mountAttached (path : String)
  | chanWrite (byte : Nat) (ok : Bool)
  | mountFailed (path : String)
  | notAbleToMount
  | procExit (code : Nat)
deriving DecidableEq

/-- Modelled from the spec: the external filesystem engine
(`DiskFile::open`/`DiskCache::new`, `redoxfs::FileSystem::open`,
`redoxfs::mount`) is repository code outside src/bin/mount.rs, so its
per-candidate outcomes are oracles, following the collaborator contract
of spec section 6: `diskOpen p` is whether opening the disk image at `p`
succeeds; `fsOpen p` is `none` on filesystem-open failure and
`some uuid` (the 16 header UUID bytes) on success; `mountOk p` is the
outcome of `mount(filesystem, mountpoint, onReady)` — `true` means the
mount attaches (the callback fires exactly once, at attach time, before
serving) and later returns `Ok(())` on clean unmount, `false` means it
returns an error before the callback ever fired; `writeOk` is whether
writes on the pipe write end succeed (their result is discarded by the
code). -/
structure Env where
  diskOpen : String → Bool
  fsOpen : String → Option (List Nat)
  mountOk : String → Bool
  writeOk : Bool

/-- The `matches` boolean computed in `daemon` (lines 115-125): with a
target UUID, exact equality of the 16 header bytes against
`uuid.as_bytes()`; without one, vacuously true. -/
def matchesB (tgt : Option (List Nat)) (u : List Nat) : Bool :=
  match tgt with
  | some t => u == t
  | none => true

/-- The match/mismatch log emitted while computing `matches`
(lines 115-125). -/
def matchEvents (tgt : Option (List Nat)) (p : String) (u : List Nat) :
    List Event :=
  match tgt with
  | some t =>
    if u == t then [Event.uuidMatch p] else [Event.uuidMismatch p]
  | none => []

/-- One iteration of the candidate loop of `daemon` (lines 107-145) for
candidate `p`: the events it emits, and whether the body reached
`mount`'s `Ok(())` arm (in which case the loop does `process::exit(0)`).
Open the disk (else log and fall through), open the filesystem (else
log and fall through), log the header UUID, test the match, and if it
matches call `mount` with the readiness callback, which on attach logs
and does `let _ = write.write(&[0])`; a mount error is logged and the
loop continues. -/
def tryCandidate (env : Env) (tgt : Option (List Nat)) (p : String) :
    List Event × Bool :=
  if env.diskOpen p then
    match env.fsOpen p with
    | some u =>
      if matchesB tgt u then
        if env.mountOk p then
          (Event.opening p :: Event.fsOpened p u ::
            (matchEvents tgt p u ++
              [Event.mountAttached p, Event.chanWrite 0 env.writeOk]),
            true)
        else
          (Event.opening p :: Event.fsOpened p u ::
            (matchEvents tgt p u ++ [Event.mountFailed p]), false)
      else
        (Event.opening p :: Event.fsOpened p u :: matchEvents tgt p u,
          false)
    | none => ([Event.opening p, Event.fsOpenFail p], false)
  else ([Event.opening p, Event.openFail p], false)

/-- The candidate loop plus epilogue of `daemon` (lines 107-158): try
each candidate in order; on success `process::exit(0)`; when the list
is exhausted, log, `let _ = write.write(&[1])`, `process::exit(1)`. -/
def daemonLoop (env : Env) (tgt : Option (List Nat)) :
    List String → List Event
  | [] =>
    [Event.notAbleToMount, Event.chanWrite 1 env.writeOk,
      Event.procExit 1]
  | p :: rest =>
    let r := tryCandidate env tgt p
    if r.2 then r.1 ++ [Event.procExit 0]
    else r.1 ++ daemonLoop env tgt rest

/-- The optional target UUID set at the top of `daemon` (lines 94-105):
`uuid_opt` is `Some` exactly for a `DiskId::Uuid` selector. -/
def uuidOpt : DiskId → Option (List Nat)
  | DiskId.path _ => none
  | DiskId.uuid u => some u

/-- The non-redox `disk_paths` (lines 51-52): a no-op on the vector of
candidate paths (no enumeration capability on this platform). -/
def disk_paths (paths : List String) : List String := paths

/-- The candidate list built at the top of `daemon` (lines 94-105) from
an empty vector: a `Path` selector pushes exactly that path; a `Uuid`
selector calls the platform `disk_paths` (abstracted as `enumerate`) on
the empty vector. -/
def daemonPaths (enumerate : List String → List String) :
    DiskId → List String
  | DiskId.path p => [p]
  | DiskId.uuid _ => enumerate []

/-- A full daemon-side run (`daemon`, lines 93-158): build the
candidate list and the optional target UUID from the selector, then run
the candidate loop. -/
def daemonRun (env : Env) (enumerate : List String → List String)
    (d : DiskId) : List Event :=
  daemonLoop env (uuidOpt d) (daemonPaths enumerate d)

/-- Result of parsing the command-line arguments in `main`
(lines 160-199): either a usage error (usage printed, `exit(1)`,
reached before the pipe or fork exists), or a selector plus a
mountpoint. -/
inductive ParseResult where
  | usageError
  | parsed (d : DiskId) (mountpoint : String)
deriving DecidableEq

/-- The argument parsing of `main` (lines 160-199), with the external
`Uuid::parse_str` abstracted as `parseUuid` (returning the 16 bytes on
success).  No first token is a usage error; a first token `--uuid`
requires a next token that parses as a UUID, else usage error; any
other first token is taken verbatim as a path; the following token is
the mountpoint, whose absence is a usage error; trailing tokens are
ignored. -/
def parseArgs (parseUuid : String → Option (List Nat)) :
    List String → ParseResult
  | [] => ParseResult.usageError
  | arg :: rest =>
    if arg = "--uuid" then
      match rest with
      | [] => ParseResult.usageError
      | uarg :: rest2 =>
        match parseUuid uarg with
        | none => ParseResult.usageError
        | some bytes =>
          match rest2 with
          | [] => ParseResult.usageError
          | m :: _ => ParseResult.parsed (DiskId.uuid bytes) m
    else
      match rest with
      | [] => ParseResult.usageError
      | m :: _ => ParseResult.parsed (DiskId.path arg) m

/-- Outcome of the launcher (`main`, lines 160-223) up to the fork:
usage error (exit 1, no pipe, no fork); `pipe` failed
(`panic!("redoxfs: failed to create pipe")`, abrupt abnormal
termination, no fork, no daemon); `fork` failed
(`panic!("redoxfs: failed to fork")`, abrupt abnormal termination, no
daemon); or the daemon was spawned with the parsed selector and
mountpoint. -/
inductive LaunchResult where
  | usageExit
  | pipePanic
  | forkPanic
  | spawned (d : DiskId) (mountpoint : String)
deriving DecidableEq

/-- The launcher (`main`, lines 160-223): parse the arguments (usage
errors exit before any pipe or fork), then create the pipe (panic on
failure), then fork (panic on failure). -/
def mainLaunch (parseUuid : String → Option (List Nat))
    (pipeOk forkOk : Bool) (args : List String) : LaunchResult :=
  match parseArgs parseUuid args with
  | ParseResult.usageError => LaunchResult.usageExit
  | ParseResult.parsed d m =>
    if pipeOk then
      if forkOk then LaunchResult.spawned d m else LaunchResult.forkPanic
    else LaunchResult.pipePanic

/-- The process exit code of a launch outcome, where a normal
`process::exit(c)` gives `some c` and a `panic!` (abrupt abnormal
termination, never a normal exit and never code 0) gives `none`; a
spawned daemon's codes are given by `daemonRun` / `parentAfterFork`
instead. -/
def launchExitCode : LaunchResult → Option Nat
  | LaunchResult.usageExit => some 1
  | _ => none

/-- Daemon-side events of a launch outcome: only a spawned daemon runs
`daemon`; usage errors and panics produce no daemon and no channel
traffic. -/
def launchDaemonTrace (env : Env) (enumerate : List String → List String)
    (r : LaunchResult) : List Event :=
  match r with
  | LaunchResult.spawned d _ => daemonRun env enumerate d
  | _ => []

/-- Result of the parent's single blocking
`read.read(&mut res)` (line 215) on the pipe read end: one byte
arrived; the channel was closed before any byte arrived (the read
returns `Ok(0)` — EOF); or the read failed with an error. -/
inductive ReadResult where
  | byteRead (b : Nat)
  | closed
  | readErr
deriving DecidableEq

/-- How the parent process terminates. -/
inductive ParentOutcome where
  | exitCode (c : Nat)
  | panicked
deriving DecidableEq

/-- The parent branch after the fork (lines 211-217):
`let mut res = [0]; read.read(&mut res).unwrap();
process::exit(res[0] as i32);`.  A received byte `b` sets `res[0] = b`;
on EOF the read returns `Ok(0)`, `unwrap` succeeds, and `res[0]` keeps
its initial value `0`; a read error makes `unwrap` panic. -/
def parentAfterFork : ReadResult → ParentOutcome
  | ReadResult.byteRead b => ParentOutcome.exitCode b
  | ReadResult.closed => ParentOutcome.exitCode 0
  | ReadResult.readErr => ParentOutcome.panicked

/-- Whether an event is a write on the handshake channel. -/
def isWrite : Event → Bool
  | Event.chanWrite _ _ => true
  | _ => false

/-- Whether an event is the readiness callback firing. -/
def isAttach : Event → Bool
  | Event.mountAttached _ => true
  | _ => false

/-- Whether an event is a `process::exit`. -/
def isExit : Event → Bool
  | Event.procExit _ => true
  | _ => false

/-- Number of channel writes in a trace. -/
def writeCount (tr : List Event) : Nat := tr.countP isWrite

/-- Number of readiness-callback firings in a trace. -/
def attachCount (tr : List Event) : Nat := tr.countP isAttach

/-- Number of `process::exit` events in a trace. -/
def exitCount (tr : List Event) : Nat := tr.countP isExit

/-- The candidate path of an `opening` event, if any. -/
def attemptPath : Event → Option String
  | Event.opening p => some p
  | _ => none

/-- The candidates attempted by a run, in order: the paths of its
`opening` events. -/
def attemptsOf (tr : List Event) : List String := tr.filterMap attemptPath

/-- Erase the (discarded) write result from a trace, for comparing runs
that differ only in whether channel writes succeed. -/
def stripOk : Event → Event
  | Event.chanWrite b _ => Event.chanWrite b true
  | e => e

/-- Checks that every readiness-callback event is immediately followed
by a write of byte 0 on the channel ("at that instant the resolver
writes Outcome Byte 0"). -/
def attachThenWrite : List Event → Bool
  | [] => true
  | Event.mountAttached _ :: tl =>
    match tl with
    | Event.chanWrite 0 _ :: _ => attachThenWrite tl
    | _ => false
  | _ :: tl => attachThenWrite tl

/-- Whether the loop body for candidate `p` reaches `process::exit(0)`:
the disk opens, the filesystem opens, the UUID matches, and the mount
attaches and returns cleanly. -/
def candSuccess (env : Env) (tgt : Option (List Nat)) (p : String) :
    Bool :=
  env.diskOpen p &&
    (match env.fsOpen p with
     | some u => matchesB tgt u && env.mountOk p
     | none => false)

/-- The exit code of a daemon run: the code of its final
`process::exit` event, when the trace ends in one. -/
def finalExit (tr : List Event) : Option Nat :=
  match tr.getLast? with
  | some (Event.procExit c) => some c
  | _ => none

/-- Test fixture: 16 UUID bytes used by the concrete witnesses. -/
def uuidA : List Nat :=
  [0, 1, 2, 3, 4, 5, 6, 7, 8, 9, 10, 11, 12, 13, 14, 15]

/-- Test fixture: an environment in which every disk fails to open. -/
def envFail : Env :=
  ⟨fun _ => false, fun _ => none, fun _ => false, true⟩

/-- Test fixture: every disk opens, the filesystem on "diskA" has
header `uuidA`, every other filesystem has an all-zero header, and
every mount attaches and unmounts cleanly. -/
def envA : Env :=
  ⟨fun _ => true,
    fun p => if p = "diskA" then some uuidA else some (List.replicate 16 0),
    fun _ => true, true⟩

/-- Test fixture: every disk opens, every filesystem has header
`uuidA`, and every mount call fails before the callback fires. -/
def envMountFail : Env :=
  ⟨fun _ => true, fun _ => some uuidA, fun _ => false, true⟩

/-- Test fixture: a UUID text parser that rejects every string. -/
def puNone : String → Option (List Nat) := fun _ => none

/-- Test fixture: a UUID text parser accepting exactly "UUID-A". -/
def puA : String → Option (List Nat) :=
  fun s => if s = "UUID-A" then some uuidA else none

/-- The success flag of a loop iteration is `candSuccess`. -/
lemma tryCandidate_snd (env : Env) (tgt : Option (List Nat))
    (p : String) : (tryCandidate env tgt p).2 = candSuccess env tgt p := by
  unfold tryCandidate candSuccess
  cases hd : env.diskOpen p
  · simp
  · cases hf : env.fsOpen p with
    | none => simp
    | some u =>
      by_cases hm : matchesB tgt u
      · by_cases ho : env.mountOk p <;> simp [hm, ho]
      · simp [hm]

/-- A success flag of `true` unpacks into the four conditions the loop
body checks before reaching `process::exit(0)`. -/
lemma candSuccess_iff (env : Env) (tgt : Option (List Nat))
    (p : String) :
    candSuccess env tgt p = true ↔
      env.diskOpen p = true ∧
        ∃ u, env.fsOpen p = some u ∧ matchesB tgt u = true ∧
          env.mountOk p = true := by
  unfold candSuccess
  cases hd : env.diskOpen p
  · simp
  · cases hf : env.fsOpen p with
    | none => simp
    | some u => simp

/-- The match/mismatch log contains no channel write, no callback
event, no exit and no `opening` event. -/
lemma matchEvents_counts (tgt : Option (List Nat)) (p : String)
    (u : List Nat) :
    List.countP isWrite (matchEvents tgt p u) = 0 ∧
      List.countP isAttach (matchEvents tgt p u) = 0 ∧
      List.countP isExit (matchEvents tgt p u) = 0 ∧
      List.filterMap attemptPath (matchEvents tgt p u) = [] := by
  cases tgt with
  | none => simp [matchEvents]
  | some t =>
    by_cases h : u == t <;>
      simp [matchEvents, h, isWrite, isAttach, isExit, attemptPath]

/-- A loop iteration writes to the channel exactly when it succeeds
(the single write of byte 0 inside the readiness callback). -/
lemma writeCount_tryCandidate (env : Env) (tgt : Option (List Nat))
    (p : String) :
    writeCount (tryCandidate env tgt p).1 =
      if candSuccess env tgt p then 1 else 0 := by
  unfold tryCandidate candSuccess
  cases hd : env.diskOpen p
  · simp [writeCount, isWrite]
  · cases hf : env.fsOpen p with
    | none => simp [writeCount, isWrite]
    | some u =>
      by_cases hm : matchesB tgt u
      · by_cases ho : env.mountOk p <;>
          simp [hm, ho, writeCount, List.countP_cons, List.countP_append,
            isWrite, (matchEvents_counts tgt p u).1]
      · simp [hm, writeCount, List.countP_cons, isWrite,
          (matchEvents_counts tgt p u).1]

/-- A loop iteration fires the readiness callback exactly when it
succeeds. -/
lemma attachCount_tryCandidate (env : Env) (tgt : Option (List Nat))
    (p : String) :
    attachCount (tryCandidate env tgt p).1 =
      if candSuccess env tgt p then 1 else 0 := by
  unfold tryCandidate candSuccess
  cases hd : env.diskOpen p
  · simp [attachCount, isAttach]
  · cases hf : env.fsOpen p with
    | none => simp [attachCount, isAttach]
    | some u =>
      by_cases hm : matchesB tgt u
      · by_cases ho : env.mountOk p <;>
          simp [hm, ho, attachCount, List.countP_cons, List.countP_append,
            isAttach, (matchEvents_counts tgt p u).2.1]
      · simp [hm, attachCount, List.countP_cons, isAttach,
          (matchEvents_counts tgt p u).2.1]

/-- A loop iteration never exits the process by itself (exits happen in
the loop driver and epilogue). -/
lemma exitCount_tryCandidate (env : Env) (tgt : Option (List Nat))
    (p : String) : exitCount (tryCandidate env tgt p).1 = 0 := by
  unfold tryCandidate
  cases hd : env.diskOpen p
  · simp [exitCount, isExit]
  · cases hf : env.fsOpen p with
    | none => simp [exitCount, isExit]
    | some u =>
      by_cases hm : matchesB tgt u
      · by_cases ho : env.mountOk p <;>
          simp [hm, ho, exitCount, List.countP_cons, List.countP_append,
            isExit, (matchEvents_counts tgt p u).2.2.1]
      · simp [hm, exitCount, List.countP_cons, isExit,
          (matchEvents_counts tgt p u).2.2.1]

/-- A loop iteration for candidate `p` attempts exactly `p` (one
`opening` log), never any other candidate and never twice. -/
lemma attemptsOf_tryCandidate (env : Env) (tgt : Option (List Nat))
    (p : String) : attemptsOf (tryCandidate env tgt p).1 = [p] := by
  unfold tryCandidate
  cases hd : env.diskOpen p
  · simp [attemptsOf, attemptPath]
  · cases hf : env.fsOpen p with
    | none => simp [attemptsOf, attemptPath]
    | some u =>
      by_cases hm : matchesB tgt u
      · by_cases ho : env.mountOk p <;>
          simp [hm, ho, attemptsOf, List.filterMap_append, attemptPath,
            (matchEvents_counts tgt p u).2.2.2]
      · simp [hm, attemptsOf, attemptPath,
          (matchEvents_counts tgt p u).2.2.2]

/-- Unfolding of the candidate loop on a nonempty list, phrased through
`candSuccess`. -/
lemma daemonLoop_cons (env : Env) (tgt : Option (List Nat)) (p : String)
    (rest : List String) :
    daemonLoop env tgt (p :: rest) =
      if candSuccess env tgt p then
        (tryCandidate env tgt p).1 ++ [Event.procExit 0]
      else (tryCandidate env tgt p).1 ++ daemonLoop env tgt rest := by
  simp only [daemonLoop, tryCandidate_snd]

/-- Channel-write counts add over trace concatenation. -/
lemma writeCount_append (a b : List Event) :
    writeCount (a ++ b) = writeCount a + writeCount b := by
  simp [writeCount, List.countP_append]

/-- Callback counts add over trace concatenation. -/
lemma attachCount_append (a b : List Event) :
    attachCount (a ++ b) = attachCount a + attachCount b := by
  simp [attachCount, List.countP_append]

/-- Exit counts add over trace concatenation. -/
lemma exitCount_append (a b : List Event) :
    exitCount (a ++ b) = exitCount a + exitCount b := by
  simp [exitCount, List.countP_append]

/-- Attempted candidates concatenate over trace concatenation. -/
lemma attemptsOf_append (a b : List Event) :
    attemptsOf (a ++ b) = attemptsOf a ++ attemptsOf b := by
  simp [attemptsOf, List.filterMap_append]

/-- Shape of every daemon run: a body with no exit event, exactly one
channel write and at most one callback firing, followed by a final
`process::exit` whose code is 0 or 1. -/
lemma daemonLoop_shape (env : Env) (tgt : Option (List Nat))
    (ps : List String) :
    ∃ body c, daemonLoop env tgt ps = body ++ [Event.procExit c] ∧
      exitCount body = 0 ∧ writeCount body = 1 ∧
      attachCount body ≤ 1 ∧ (c = 0 ∨ c = 1) := by
  induction ps with
  | nil =>
    refine ⟨[Event.notAbleToMount, Event.chanWrite 1 env.writeOk], 1,
      rfl, ?_, ?_, ?_, Or.inr rfl⟩ <;>
      simp [exitCount, writeCount, attachCount, isExit, isWrite, isAttach]
  | cons p rest ih =>
    rw [daemonLoop_cons]
    by_cases h : candSuccess env tgt p
    · refine ⟨(tryCandidate env tgt p).1, 0, by rw [if_pos h], ?_, ?_, ?_,
        Or.inl rfl⟩
      · exact exitCount_tryCandidate env tgt p
      · rw [writeCount_tryCandidate, if_pos h]
      · rw [attachCount_tryCandidate, if_pos h]
    · obtain ⟨body, c, heq, hex, hw, hat, hc⟩ := ih
      refine ⟨(tryCandidate env tgt p).1 ++ body, c, ?_, ?_, ?_, ?_, hc⟩
      · rw [if_neg h, heq, List.append_assoc]
      · rw [exitCount_append, exitCount_tryCandidate, hex]
      · rw [writeCount_append, writeCount_tryCandidate, if_neg h, hw]
      · rw [attachCount_append, attachCount_tryCandidate, if_neg h]
        simpa using hat

/-- If every candidate fails, the run is the failing segments followed
by the exhaustion epilogue: the "not able to mount" log, the write of
byte 1, and `process::exit(1)`; the prefix contains no channel write
and attempts every candidate in order. -/
lemma daemonLoop_exhaust (env : Env) (tgt : Option (List Nat))
    (ps : List String) (h : ∀ p ∈ ps, candSuccess env tgt p = false) :
    ∃ pre, daemonLoop env tgt ps =
      pre ++ [Event.notAbleToMount, Event.chanWrite 1 env.writeOk,
        Event.procExit 1] ∧
      writeCount pre = 0 ∧ attemptsOf pre = ps := by
  induction ps with
  | nil =>
    exact ⟨[], rfl, rfl, rfl⟩
  | cons p rest ih =>
    have hp : candSuccess env tgt p = false := h p (by simp)
    have hp' : ¬candSuccess env tgt p = true := by simp [hp]
    obtain ⟨pre, heq, hw, hat⟩ := ih (fun q hq => h q (by simp [hq]))
    rw [daemonLoop_cons]
    refine ⟨(tryCandidate env tgt p).1 ++ pre, ?_, ?_, ?_⟩
    · rw [if_neg hp', heq, List.append_assoc]
    · rw [writeCount_append, writeCount_tryCandidate, if_neg hp', hw]
    · rw [attemptsOf_append, attemptsOf_tryCandidate, hat]
      rfl

/-- The candidates a run attempts are an initial segment of the
candidate list: in order, never skipping, never retrying. -/
lemma attemptsOf_daemonLoop (env : Env) (tgt : Option (List Nat))
    (ps : List String) :
    ∃ k, k ≤ ps.length ∧
      attemptsOf (daemonLoop env tgt ps) = ps.take k := by
  induction ps with
  | nil => exact ⟨0, Nat.le_refl 0, rfl⟩
  | cons p rest ih =>
    rw [daemonLoop_cons]
    by_cases h : candSuccess env tgt p
    · refine ⟨1, by simp, ?_⟩
      rw [if_pos h, attemptsOf_append, attemptsOf_tryCandidate]
      rfl
    · obtain ⟨k, hk, hat⟩ := ih
      refine ⟨k + 1, by simpa using hk, ?_⟩
      rw [if_neg h, attemptsOf_append, attemptsOf_tryCandidate, hat]
      rfl

/-- Prepending events that contain no callback firing does not affect
the callback-is-immediately-followed-by-a-write check. -/
lemma attachThenWrite_append (a b : List Event)
    (ha : attachCount a = 0) :
    attachThenWrite (a ++ b) = attachThenWrite b := by
  induction a with
  | nil => rfl
  | cons e tl ih =>
    rw [show (e :: tl) = [e] ++ tl from rfl, attachCount_append] at ha
    have htl : attachCount tl = 0 := by omega
    have he1 : attachCount [e] = 0 := by omega
    have he : isAttach e = false := by
      by_cases hcase : isAttach e = true
      · simp [attachCount, hcase] at he1
      · simpa using hcase
    cases e
    case mountAttached => exact absurd he (by simp [isAttach])
    all_goals simpa [attachThenWrite] using ih htl

/-- In a successful iteration the trace ends with the callback firing
immediately followed by the write of byte 0, and the events before that
pair contain neither a callback nor a write. -/
lemma tryCandidate_success_shape (env : Env) (tgt : Option (List Nat))
    (p : String) (h : candSuccess env tgt p = true) :
    ∃ u pre, env.fsOpen p = some u ∧ matchesB tgt u = true ∧
      (tryCandidate env tgt p).1 =
        pre ++ [Event.mountAttached p, Event.chanWrite 0 env.writeOk] ∧
      attachCount pre = 0 ∧ writeCount pre = 0 := by
  rw [candSuccess_iff] at h
  obtain ⟨hd, u, hf, hm, ho⟩ := h
  refine ⟨u, Event.opening p :: Event.fsOpened p u :: matchEvents tgt p u,
    hf, hm, ?_, ?_, ?_⟩
  · unfold tryCandidate
    rw [hd, hf]
    simp only [hm, ho, if_pos]
    simp
  · have h1 := (matchEvents_counts tgt p u).2.1
    simp [attachCount, List.countP_cons, isAttach, h1]
  · have h1 := (matchEvents_counts tgt p u).1
    simp [writeCount, List.countP_cons, isWrite, h1]

/-- In every daemon run, each firing of the readiness callback is
immediately followed by the write of byte 0 on the channel. -/
lemma attachThenWrite_daemonLoop (env : Env) (tgt : Option (List Nat))
    (ps : List String) :
    attachThenWrite (daemonLoop env tgt ps) = true := by
  induction ps with
  | nil => rfl
  | cons p rest ih =>
    rw [daemonLoop_cons]
    by_cases h : candSuccess env tgt p
    · rw [if_pos h]
      obtain ⟨u, pre, _, _, hshape, hpre, _⟩ :=
        tryCandidate_success_shape env tgt p h
      rw [hshape, List.append_assoc,
        attachThenWrite_append pre _ hpre]
      rfl
    · rw [if_neg h]
      have h0 : attachCount (tryCandidate env tgt p).1 = 0 := by
        rw [attachCount_tryCandidate, if_neg h]
      rw [attachThenWrite_append _ _ h0, ih]

/-- In a failing iteration no callback fires and nothing is written to
the channel. -/
lemma tryCandidate_fail_silent (env : Env) (tgt : Option (List Nat))
    (p : String) (h : candSuccess env tgt p = false) :
    attachCount (tryCandidate env tgt p).1 = 0 ∧
      writeCount (tryCandidate env tgt p).1 = 0 := by
  have h' : ¬candSuccess env tgt p = true := by simp [h]
  exact ⟨by rw [attachCount_tryCandidate, if_neg h'],
    by rw [writeCount_tryCandidate, if_neg h']⟩

/-- Any callback event inside one iteration for candidate `p` names `p`
itself, and (in UUID mode) certifies that the filesystem opened on `p`
with exactly the target UUID in its header. -/
lemma attach_mem_tryCandidate (env : Env) (tgt : Option (List Nat))
    (p q : String)
    (h : Event.mountAttached q ∈ (tryCandidate env tgt p).1) :
    q = p ∧ ∃ u, env.fsOpen p = some u ∧ matchesB tgt u = true := by
  rcases tgt with _ | t
  · cases hd : env.diskOpen p
    · simp [tryCandidate, hd] at h
    · cases hf : env.fsOpen p with
      | none => simp [tryCandidate, hd, hf] at h
      | some u =>
        cases ho : env.mountOk p
        · simp [tryCandidate, hd, hf, ho, matchesB, matchEvents] at h
        · simp [tryCandidate, hd, hf, ho, matchesB, matchEvents] at h
          exact ⟨h, u, rfl, rfl⟩
  · cases hd : env.diskOpen p
    · simp [tryCandidate, hd] at h
    · cases hf : env.fsOpen p with
      | none => simp [tryCandidate, hd, hf] at h
      | some u =>
        by_cases hm : (u == t) = true
        · cases ho : env.mountOk p
          · simp [tryCandidate, hd, hf, ho, matchesB, matchEvents, hm]
              at h
          · simp [tryCandidate, hd, hf, ho, matchesB, matchEvents, hm]
              at h
            exact ⟨h, u, rfl, by simp [matchesB, hm]⟩
        · simp [tryCandidate, hd, hf, matchesB, matchEvents, hm] at h

/-- In UUID mode, any candidate on which the readiness callback fires
(equivalently, on which `mount` was attached) opened a filesystem whose
header UUID equals the target UUID byte-for-byte. -/
lemma attach_mem_daemonLoop (env : Env) (t : List Nat)
    (ps : List String) (q : String)
    (h : Event.mountAttached q ∈ daemonLoop env (some t) ps) :
    env.fsOpen q = some t := by
  induction ps with
  | nil => simp [daemonLoop] at h
  | cons p rest ih =>
    rw [daemonLoop_cons] at h
    by_cases hs : candSuccess env (some t) p
    · rw [if_pos hs] at h
      rw [List.mem_append] at h
      rcases h with h | h
      · obtain ⟨hq, u, hf, hm⟩ := attach_mem_tryCandidate env _ p q h
        subst hq
        simp [matchesB] at hm
        rw [hf, hm]
      · simp at h
    · rw [if_neg hs] at h
      rw [List.mem_append] at h
      rcases h with h | h
      · obtain ⟨hq, u, hf, hm⟩ := attach_mem_tryCandidate env _ p q h
        subst hq
        simp [matchesB] at hm
        rw [hf, hm]
      · exact ih h

/-- A trace ending in a `process::exit` event has that exit code. -/
lemma finalExit_concat (a : List Event) (c : Nat) :
    finalExit (a ++ [Event.procExit c]) = some c := by
  simp [finalExit, List.getLast?_concat]

/-- A successful head candidate makes the daemon exit with code 0
(clean unmount). -/
lemma daemonLoop_head_success_exit (env : Env) (tgt : Option (List Nat))
    (p : String) (rest : List String)
    (h : candSuccess env tgt p = true) :
    finalExit (daemonLoop env tgt (p :: rest)) = some 0 := by
  rw [daemonLoop_cons, if_pos h, finalExit_concat]

/-- When every candidate fails, the daemon exits with code 1. -/
lemma daemonLoop_exhaust_exit (env : Env) (tgt : Option (List Nat))
    (ps : List String) (h : ∀ p ∈ ps, candSuccess env tgt p = false) :
    finalExit (daemonLoop env tgt ps) = some 1 := by
  obtain ⟨pre, heq, _, _⟩ := daemonLoop_exhaust env tgt ps h
  have hassoc :
      pre ++ [Event.notAbleToMount, Event.chanWrite 1 env.writeOk,
        Event.procExit 1] =
      (pre ++ [Event.notAbleToMount, Event.chanWrite 1 env.writeOk]) ++
        [Event.procExit 1] := by
    simp
  rw [heq, hassoc, finalExit_concat]

/-- The success of a candidate never depends on whether channel writes
succeed. -/
lemma candSuccess_writeOk_indep (dO : String → Bool)
    (fO : String → Option (List Nat)) (mO : String → Bool)
    (w1 w2 : Bool) (tgt : Option (List Nat)) (p : String) :
    candSuccess ⟨dO, fO, mO, w1⟩ tgt p =
      candSuccess ⟨dO, fO, mO, w2⟩ tgt p := rfl

/-- Up to the discarded write result, one loop iteration emits the same
events whether or not channel writes succeed. -/
lemma tryCandidate_writeOk_indep (dO : String → Bool)
    (fO : String → Option (List Nat)) (mO : String → Bool)
    (w1 w2 : Bool) (tgt : Option (List Nat)) (p : String) :
    (tryCandidate ⟨dO, fO, mO, w1⟩ tgt p).1.map stripOk =
      (tryCandidate ⟨dO, fO, mO, w2⟩ tgt p).1.map stripOk := by
  cases hd : dO p
  · simp [tryCandidate, hd]
  · cases hf : fO p with
    | none => simp [tryCandidate, hd, hf]
    | some u =>
      by_cases hm : matchesB tgt u
      · cases ho : mO p <;> simp [tryCandidate, hd, hf, hm, ho, stripOk]
      · simp [tryCandidate, hd, hf, hm]

/-- Up to the discarded write result, a daemon run emits the same
events whether or not channel writes succeed. -/
lemma daemonLoop_writeOk_indep (dO : String → Bool)
    (fO : String → Option (List Nat)) (mO : String → Bool)
    (w1 w2 : Bool) (tgt : Option (List Nat)) (ps : List String) :
    (daemonLoop ⟨dO, fO, mO, w1⟩ tgt ps).map stripOk =
      (daemonLoop ⟨dO, fO, mO, w2⟩ tgt ps).map stripOk := by
  induction ps with
  | nil => simp [daemonLoop, stripOk]
  | cons p rest ih =>
    rw [daemonLoop_cons, daemonLoop_cons]
    have hcs : candSuccess ⟨dO, fO, mO, w1⟩ tgt p =
        candSuccess ⟨dO, fO, mO, w2⟩ tgt p := rfl
    by_cases h : candSuccess ⟨dO, fO, mO, w1⟩ tgt p
    · have h2 : candSuccess ⟨dO, fO, mO, w2⟩ tgt p = true := by
        rw [← hcs]; exact h
      rw [if_pos h, if_pos h2]
      simp only [List.map_append]
      rw [tryCandidate_writeOk_indep dO fO mO w1 w2 tgt p]
    · have h2 : ¬candSuccess ⟨dO, fO, mO, w2⟩ tgt p = true := by
        rw [← hcs]; exact h
      rw [if_neg h, if_neg h2]
      simp only [List.map_append]
      rw [tryCandidate_writeOk_indep dO fO mO w1 w2 tgt p, ih]

/-- The daemon's exit code never depends on whether channel writes
succeed. -/
lemma daemonLoop_finalExit_indep (dO : String → Bool)
    (fO : String → Option (List Nat)) (mO : String → Bool)
    (w1 w2 : Bool) (tgt : Option (List Nat)) (ps : List String) :
    finalExit (daemonLoop ⟨dO, fO, mO, w1⟩ tgt ps) =
      finalExit (daemonLoop ⟨dO, fO, mO, w2⟩ tgt ps) := by
  obtain ⟨b1, c1, he1, _, _, _, _⟩ :=
    daemonLoop_shape ⟨dO, fO, mO, w1⟩ tgt ps
  obtain ⟨b2, c2, he2, _, _, _, _⟩ :=
    daemonLoop_shape ⟨dO, fO, mO, w2⟩ tgt ps
  have hmap := daemonLoop_writeOk_indep dO fO mO w1 w2 tgt ps
  have hlast := congrArg List.getLast? hmap
  rw [List.getLast?_map, List.getLast?_map, he1, he2,
    List.getLast?_concat, List.getLast?_concat] at hlast
  simp [stripOk] at hlast
  rw [he1, he2, finalExit_concat, finalExit_concat, hlast]

/-- C1: the parent exits with any received outcome byte as its exit
code; but at the failing input — the handshake channel closing before
any byte arrives — the parent exits with code 0 (reported success),
because `read` returns `Ok(0)` at EOF, `unwrap` does not fail, and
`res[0]` keeps its initial value 0.  The distinguishable fatal failure
required by the claim does not happen: channel closure is silently
mapped to success. -/
theorem claim1_parent_eof_is_success :
    parentAfterFork ReadResult.closed = ParentOutcome.exitCode 0 ∧
    (∀ b, parentAfterFork (ReadResult.byteRead b) =
      ParentOutcome.exitCode b) :=
  ⟨rfl, fun _ => rfl⟩

/-- C2: every daemon-side run — over any candidate list and any
open/match/mount outcomes — writes exactly one byte to the handshake
channel, and that single write happens strictly before the terminating
`process::exit`, which is the final event of the run and its only exit. -/
theorem claim2_exactly_one_write (env : Env) (tgt : Option (List Nat))
    (ps : List String) :
    writeCount (daemonLoop env tgt ps) = 1 ∧
    ∃ body c, daemonLoop env tgt ps = body ++ [Event.procExit c] ∧
      writeCount body = 1 ∧ exitCount body = 0 := by
  obtain ⟨body, c, heq, hex, hw, _, _⟩ := daemonLoop_shape env tgt ps
  refine ⟨?_, body, c, heq, hw, hex⟩
  rw [heq, writeCount_append, hw]
  simp [writeCount, isWrite]

/-- C3: whenever the resolver exhausts its candidate list without a
successful mount — the empty list included — the daemon writes outcome
byte 1 to the channel and terminates with exit code 1; the run is a
terminating trace ending in the exhaustion epilogue, never a wait on a
nonexistent candidate. -/
theorem claim3_exhaustion (env : Env) (tgt : Option (List Nat))
    (ps : List String)
    (h : ∀ p ∈ ps, candSuccess env tgt p = false) :
    (∃ pre, daemonLoop env tgt ps =
      pre ++ [Event.notAbleToMount, Event.chanWrite 1 env.writeOk,
        Event.procExit 1] ∧ writeCount pre = 0) ∧
    finalExit (daemonLoop env tgt ps) = some 1 ∧
    daemonLoop env tgt [] =
      [Event.notAbleToMount, Event.chanWrite 1 env.writeOk,
        Event.procExit 1] := by
  obtain ⟨pre, heq, hw, _⟩ := daemonLoop_exhaust env tgt ps h
  exact ⟨⟨pre, heq, hw⟩, daemonLoop_exhaust_exit env tgt ps h, rfl⟩

/-- C3 witness: with one candidate whose disk fails to open, the run
ends in the exhaustion epilogue and exit code 1. -/
theorem claim3_exhaustion_witness :
    (∀ p ∈ ["d0"], candSuccess envFail none p = false) ∧
    ((∃ pre, daemonLoop envFail none ["d0"] =
      pre ++ [Event.notAbleToMount, Event.chanWrite 1 envFail.writeOk,
        Event.procExit 1] ∧ writeCount pre = 0) ∧
    finalExit (daemonLoop envFail none ["d0"]) = some 1 ∧
    daemonLoop envFail none [] =
      [Event.notAbleToMount, Event.chanWrite 1 envFail.writeOk,
        Event.procExit 1]) :=
  ⟨by decide, claim3_exhaustion envFail none ["d0"] (by decide)⟩

/-- C4: the readiness callback fires exactly once per successful
attach, and the write of outcome byte 0 happens at that instant
(immediately after the callback event, with at most one callback per
run); a mount call that returns normally after the callback — the
clean unmount — ends the daemon with exit code 0; a mount call that
errors before the callback ever fired writes no byte and the loop
continues with the next candidate. -/
theorem claim4_callback (env : Env) (tgt : Option (List Nat))
    (ps : List String) (p : String) (rest : List String)
    (u : List Nat) :
    attachThenWrite (daemonLoop env tgt ps) = true ∧
    attachCount (daemonLoop env tgt ps) ≤ 1 ∧
    (candSuccess env tgt p = true →
      attachCount (tryCandidate env tgt p).1 = 1 ∧
      finalExit (daemonLoop env tgt (p :: rest)) = some 0) ∧
    (env.diskOpen p = true → env.fsOpen p = some u →
      matchesB tgt u = true → env.mountOk p = false →
      writeCount (tryCandidate env tgt p).1 = 0 ∧
      attachCount (tryCandidate env tgt p).1 = 0 ∧
      daemonLoop env tgt (p :: rest) =
        (tryCandidate env tgt p).1 ++ daemonLoop env tgt rest) := by
  refine ⟨attachThenWrite_daemonLoop env tgt ps, ?_, ?_, ?_⟩
  · obtain ⟨body, c, heq, _, _, hat, _⟩ := daemonLoop_shape env tgt ps
    rw [heq, attachCount_append]
    have h0 : attachCount [Event.procExit c] = 0 := by
      simp [attachCount, isAttach]
    omega
  · intro h
    refine ⟨?_, daemonLoop_head_success_exit env tgt p rest h⟩
    rw [attachCount_tryCandidate, if_pos h]
  · intro hd hf hm ho
    have hfail : candSuccess env tgt p = false := by
      simp [candSuccess, hd, hf, hm, ho]
    obtain ⟨ha, hw⟩ := tryCandidate_fail_silent env tgt p hfail
    have hfail' : ¬candSuccess env tgt p = true := by simp [hfail]
    exact ⟨hw, ha, by rw [daemonLoop_cons, if_neg hfail']⟩

/-- C4 witness: a successful candidate fires the callback once and the
daemon exits 0; a candidate whose mount errors before the callback
writes nothing and the loop advances. -/
theorem claim4_callback_witness :
    (candSuccess envA (some uuidA) "diskA" = true ∧
      attachCount (tryCandidate envA (some uuidA) "diskA").1 = 1 ∧
      finalExit (daemonLoop envA (some uuidA) ["diskA"]) = some 0) ∧
    (envMountFail.diskOpen "d0" = true ∧
      envMountFail.fsOpen "d0" = some uuidA ∧
      matchesB none uuidA = true ∧ envMountFail.mountOk "d0" = false ∧
      (writeCount (tryCandidate envMountFail none "d0").1 = 0 ∧
        attachCount (tryCandidate envMountFail none "d0").1 = 0 ∧
        daemonLoop envMountFail none ["d0", "d1"] =
          (tryCandidate envMountFail none "d0").1 ++
            daemonLoop envMountFail none ["d1"])) :=
  ⟨⟨by decide,
    (claim4_callback envA (some uuidA) [] "diskA" [] uuidA).2.2.1
      (by decide)⟩,
   ⟨by decide, by decide, by decide, by decide,
    (claim4_callback envMountFail none [] "d0" ["d1"] uuidA).2.2.2
      (by decide) (by decide) (by decide) (by decide)⟩⟩

/-- C5: with a UUID selector, matching is exact byte-equality of the
16-byte values; a candidate whose header mismatches logs the mismatch,
fires no callback, is never mounted (no mount attempt, no write), and
the loop moves to the next candidate; every candidate on which `mount`
attaches opened a filesystem whose header UUID equals the target, so
when the target UUID identifies a unique candidate only that candidate
is ever mounted, regardless of ordering. -/
theorem claim5_uuid_selection (env : Env) (t : List Nat)
    (ps : List String) (m p : String) (rest : List String)
    (u : List Nat) :
    matchesB (some t) u = (u == t) ∧
    (env.diskOpen p = true → env.fsOpen p = some u → u ≠ t →
      Event.uuidMismatch p ∈ (tryCandidate env (some t) p).1 ∧
      attachCount (tryCandidate env (some t) p).1 = 0 ∧
      Event.mountFailed p ∉ (tryCandidate env (some t) p).1 ∧
      writeCount (tryCandidate env (some t) p).1 = 0 ∧
      daemonLoop env (some t) (p :: rest) =
        (tryCandidate env (some t) p).1 ++
          daemonLoop env (some t) rest) ∧
    (∀ q, Event.mountAttached q ∈ daemonLoop env (some t) ps →
      env.fsOpen q = some t) ∧
    ((∀ q, env.fsOpen q = some t → q = m) →
      ∀ q, Event.mountAttached q ∈ daemonLoop env (some t) ps →
        q = m) := by
  refine ⟨rfl, ?_, ?_, ?_⟩
  · intro hd hf hne
    have hbe : (u == t) = false := by simp [hne]
    have hm : matchesB (some t) u = false := by simp [matchesB, hbe]
    have hfail : candSuccess env (some t) p = false := by
      simp [candSuccess, hd, hf, hm]
    obtain ⟨ha, hw⟩ := tryCandidate_fail_silent env (some t) p hfail
    have hfail' : ¬candSuccess env (some t) p = true := by simp [hfail]
    refine ⟨?_, ha, ?_, hw, by rw [daemonLoop_cons, if_neg hfail']⟩
    · simp [tryCandidate, hd, hf, matchesB, hbe, matchEvents]
    · simp [tryCandidate, hd, hf, matchesB, hbe, matchEvents]
  · exact fun q h => attach_mem_daemonLoop env t ps q h
  · exact fun huniq q h => huniq q (attach_mem_daemonLoop env t ps q h)

/-- C5 witness: two candidates, only "diskA" carrying the target UUID:
the mismatching "diskB" is discarded without a mount attempt, and only
"diskA" can ever be the attached candidate. -/
theorem claim5_uuid_selection_witness :
    (envA.diskOpen "diskB" = true ∧
      envA.fsOpen "diskB" = some (List.replicate 16 0) ∧
      List.replicate 16 0 ≠ uuidA) ∧
    (Event.uuidMismatch "diskB" ∈
        (tryCandidate envA (some uuidA) "diskB").1 ∧
      attachCount (tryCandidate envA (some uuidA) "diskB").1 = 0 ∧
      Event.mountFailed "diskB" ∉
        (tryCandidate envA (some uuidA) "diskB").1 ∧
      writeCount (tryCandidate envA (some uuidA) "diskB").1 = 0 ∧
      daemonLoop envA (some uuidA) ["diskB", "diskA"] =
        (tryCandidate envA (some uuidA) "diskB").1 ++
          daemonLoop envA (some uuidA) ["diskA"]) ∧
    (∀ q, Event.mountAttached q ∈
        daemonLoop envA (some uuidA) ["diskB", "diskA"] →
      q = "diskA") :=
  ⟨⟨by decide, by decide, by decide⟩,
   (claim5_uuid_selection envA uuidA ["diskB", "diskA"] "diskA" "diskB"
      ["diskA"] (List.replicate 16 0)).2.1 (by decide) (by decide)
      (by decide),
   (claim5_uuid_selection envA uuidA ["diskB", "diskA"] "diskA" "diskB"
      ["diskA"] (List.replicate 16 0)).2.2.2
     (by
       intro q hq
       by_cases hcase : q = "diskA"
       · exact hcase
       · simp [envA, hcase] at hq
         exact absurd hq (by decide))⟩

/-- C6: the argument parser, consuming tokens in order: a lone
`--uuid` (missing UUID token) or a `--uuid` whose next token fails UUID
parsing is a usage error exiting with code 1 before any pipe or fork
exists; a missing mountpoint in either branch is likewise a usage
error; any other first token is taken verbatim as an explicit path; and
every successful parse yields exactly one of an explicit path or a
UUID selector plus a mountpoint. -/
theorem claim6_arg_parsing (pu : String → Option (List Nat)) :
    (∀ pk fk, mainLaunch pu pk fk ["--uuid"] = LaunchResult.usageExit) ∧
    (∀ uarg rest pk fk, pu uarg = none →
      mainLaunch pu pk fk ("--uuid" :: uarg :: rest) =
        LaunchResult.usageExit) ∧
    (∀ arg pk fk, arg ≠ "--uuid" →
      mainLaunch pu pk fk [arg] = LaunchResult.usageExit) ∧
    (∀ uarg bytes pk fk, pu uarg = some bytes →
      mainLaunch pu pk fk ["--uuid", uarg] = LaunchResult.usageExit) ∧
    (∀ arg m rest, arg ≠ "--uuid" →
      parseArgs pu (arg :: m :: rest) =
        ParseResult.parsed (DiskId.path arg) m) ∧
    (∀ uarg bytes m rest, pu uarg = some bytes →
      parseArgs pu ("--uuid" :: uarg :: m :: rest) =
        ParseResult.parsed (DiskId.uuid bytes) m) ∧
    (∀ args d m, parseArgs pu args = ParseResult.parsed d m →
      (∃ p, d = DiskId.path p) ∨ (∃ b, d = DiskId.uuid b)) ∧
    launchExitCode LaunchResult.usageExit = some 1 ∧
    (∀ env enumerate,
      launchDaemonTrace env enumerate LaunchResult.usageExit = []) := by
  refine ⟨?_, ?_, ?_, ?_, ?_, ?_, ?_, rfl, fun _ _ => rfl⟩
  · intro pk fk
    simp [mainLaunch, parseArgs]
  · intro uarg rest pk fk h
    simp [mainLaunch, parseArgs, h]
  · intro arg pk fk h
    simp [mainLaunch, parseArgs, h]
  · intro uarg bytes pk fk h
    simp [mainLaunch, parseArgs, h]
  · intro arg m rest h
    simp [parseArgs, h]
  · intro uarg bytes m rest h
    simp [parseArgs, h]
  · intro args d m _
    cases d with
    | path p => exact Or.inl ⟨p, rfl⟩
    | uuid b => exact Or.inr ⟨b, rfl⟩

/-- C6 witness: a malformed UUID value and a missing mountpoint are
usage errors without a daemon; well-formed inputs parse to the
expected selector and mountpoint. -/
theorem claim6_arg_parsing_witness :
    puA "bogus" = none ∧
    mainLaunch puA true true ["--uuid", "bogus", "/mnt"] =
      LaunchResult.usageExit ∧
    ("/dev/sda1" : String) ≠ "--uuid" ∧
    mainLaunch puA true true ["/dev/sda1"] = LaunchResult.usageExit ∧
    parseArgs puA ["/dev/sda1", "/mnt", "extra"] =
      ParseResult.parsed (DiskId.path "/dev/sda1") "/mnt" ∧
    puA "UUID-A" = some uuidA ∧
    parseArgs puA ["--uuid", "UUID-A", "/mnt"] =
      ParseResult.parsed (DiskId.uuid uuidA) "/mnt" :=
  ⟨by decide,
   (claim6_arg_parsing puA).2.1 "bogus" ["/mnt"] true true (by decide),
   by decide,
   (claim6_arg_parsing puA).2.2.1 "/dev/sda1" true true (by decide),
   (claim6_arg_parsing puA).2.2.2.2.1 "/dev/sda1" "/mnt" ["extra"]
     (by decide),
   by decide,
   (claim6_arg_parsing puA).2.2.2.2.2.1 "UUID-A" uuidA "/mnt" [] (by decide)⟩

/-- C7: candidate enumeration — an explicit-path selector yields
exactly the singleton of that path, whatever the platform enumeration
capability; a UUID selector on a platform without enumeration support
(the non-redox `disk_paths` no-op) yields the empty sequence. -/
theorem claim7_enumeration :
    (∀ enumerate p, daemonPaths enumerate (DiskId.path p) = [p]) ∧
    (∀ u, daemonPaths disk_paths (DiskId.uuid u) = []) :=
  ⟨fun _ _ => rfl, fun _ => rfl⟩

/-- C8: every recoverable per-candidate failure makes the loop advance
to the next candidate; the attempted candidates are always an initial
segment of the candidate list taken in order (no retry, no skip); when
every candidate fails all of them are attempted and the daemon still
terminates normally through the exhaustion epilogue; and every run ends
in a normal `process::exit` with code 0 or 1, never a crash. -/
theorem claim8_recoverable_failures (env : Env)
    (tgt : Option (List Nat)) :
    (∀ p rest, candSuccess env tgt p = false →
      daemonLoop env tgt (p :: rest) =
        (tryCandidate env tgt p).1 ++ daemonLoop env tgt rest) ∧
    (∀ ps, ∃ k, k ≤ ps.length ∧
      attemptsOf (daemonLoop env tgt ps) = ps.take k) ∧
    (∀ ps, (∀ p ∈ ps, candSuccess env tgt p = false) →
      attemptsOf (daemonLoop env tgt ps) = ps ∧
      finalExit (daemonLoop env tgt ps) = some 1) ∧
    (∀ ps, ∃ body c, daemonLoop env tgt ps = body ++ [Event.procExit c] ∧
      (c = 0 ∨ c = 1)) := by
  refine ⟨?_, attemptsOf_daemonLoop env tgt, ?_, ?_⟩
  · intro p rest h
    have h' : ¬candSuccess env tgt p = true := by simp [h]
    rw [daemonLoop_cons, if_neg h']
  · intro ps h
    obtain ⟨pre, heq, _, hat⟩ := daemonLoop_exhaust env tgt ps h
    refine ⟨?_, daemonLoop_exhaust_exit env tgt ps h⟩
    rw [heq, attemptsOf_append, hat]
    simp [attemptsOf, attemptPath]
  · intro ps
    obtain ⟨body, c, heq, _, _, _, hc⟩ := daemonLoop_shape env tgt ps
    exact ⟨body, c, heq, hc⟩

/-- C8 witness: a failing candidate advances the loop; with every
candidate failing, both are attempted in order and the daemon exits 1
normally. -/
theorem claim8_recoverable_failures_witness :
    candSuccess envFail none "d0" = false ∧
    daemonLoop envFail none ["d0", "d1"] =
      (tryCandidate envFail none "d0").1 ++
        daemonLoop envFail none ["d1"] ∧
    (∀ p ∈ ["d0", "d1"], candSuccess envFail none p = false) ∧
    (attemptsOf (daemonLoop envFail none ["d0", "d1"]) = ["d0", "d1"] ∧
      finalExit (daemonLoop envFail none ["d0", "d1"]) = some 1) :=
  ⟨by decide,
   (claim8_recoverable_failures envFail none).1 "d0" ["d1"] (by decide),
   by decide,
   (claim8_recoverable_failures envFail none).2.2.1 ["d0", "d1"]
     (by decide)⟩

/-- C9: once the arguments parse, a pipe-creation failure makes the
launcher panic before any fork and a fork failure makes it panic after
the pipe: in both cases the process aborts abruptly and abnormally (no
normal exit code), no daemon is spawned, no handshake is attempted, and
no byte is ever written to any channel. -/
theorem claim9_fatal_abort (pu : String → Option (List Nat))
    (args : List String) (d : DiskId) (m : String)
    (h : parseArgs pu args = ParseResult.parsed d m) :
    (∀ fk, mainLaunch pu false fk args = LaunchResult.pipePanic) ∧
    mainLaunch pu true false args = LaunchResult.forkPanic ∧
    launchExitCode LaunchResult.pipePanic = none ∧
    launchExitCode LaunchResult.forkPanic = none ∧
    (∀ env enumerate,
      launchDaemonTrace env enumerate LaunchResult.pipePanic = [] ∧
      launchDaemonTrace env enumerate LaunchResult.forkPanic = []) := by
  refine ⟨?_, ?_, rfl, rfl, fun _ _ => ⟨rfl, rfl⟩⟩
  · intro fk
    simp [mainLaunch, h]
  · simp [mainLaunch, h]

/-- C9 witness: with well-formed arguments, pipe failure and fork
failure each abort with no daemon trace. -/
theorem claim9_fatal_abort_witness :
    parseArgs puA ["/dev/sda1", "/mnt"] =
      ParseResult.parsed (DiskId.path "/dev/sda1") "/mnt" ∧
    ((∀ fk, mainLaunch puA false fk ["/dev/sda1", "/mnt"] =
        LaunchResult.pipePanic) ∧
      mainLaunch puA true false ["/dev/sda1", "/mnt"] =
        LaunchResult.forkPanic ∧
      launchExitCode LaunchResult.pipePanic = none ∧
      launchExitCode LaunchResult.forkPanic = none ∧
      (∀ env enumerate,
        launchDaemonTrace env enumerate LaunchResult.pipePanic = [] ∧
        launchDaemonTrace env enumerate LaunchResult.forkPanic = [])) :=
  ⟨by decide,
   claim9_fatal_abort puA ["/dev/sda1", "/mnt"]
     (DiskId.path "/dev/sda1") "/mnt" (by decide)⟩

/-- C10: the daemon's events (up to the discarded write result), its
exit code, and its candidate-loop behaviour are identical whether
channel writes succeed or fail: with failing writes the daemon still
exits 0 after a clean unmount and 1 after exhausting all candidates. -/
theorem claim10_write_result_discarded (dO : String → Bool)
    (fO : String → Option (List Nat)) (mO : String → Bool)
    (w1 w2 : Bool) (tgt : Option (List Nat)) (ps : List String)
    (p : String) (rest : List String) :
    ((daemonLoop ⟨dO, fO, mO, w1⟩ tgt ps).map stripOk =
      (daemonLoop ⟨dO, fO, mO, w2⟩ tgt ps).map stripOk) ∧
    finalExit (daemonLoop ⟨dO, fO, mO, w1⟩ tgt ps) =
      finalExit (daemonLoop ⟨dO, fO, mO, w2⟩ tgt ps) ∧
    (candSuccess ⟨dO, fO, mO, w1⟩ tgt p = true →
      ∀ w : Bool,
        finalExit (daemonLoop ⟨dO, fO, mO, w⟩ tgt (p :: rest)) =
          some 0) ∧
    ((∀ q ∈ ps, candSuccess ⟨dO, fO, mO, w1⟩ tgt q = false) →
      ∀ w : Bool,
        finalExit (daemonLoop ⟨dO, fO, mO, w⟩ tgt ps) = some 1) := by
  refine ⟨daemonLoop_writeOk_indep dO fO mO w1 w2 tgt ps,
    daemonLoop_finalExit_indep dO fO mO w1 w2 tgt ps, ?_, ?_⟩
  · intro h w
    exact daemonLoop_head_success_exit ⟨dO, fO, mO, w⟩ tgt p rest h
  · intro h w
    exact daemonLoop_exhaust_exit ⟨dO, fO, mO, w⟩ tgt ps
      (fun q hq => h q hq)

/-- C10 witness: with a succeeding candidate, the daemon exits 0 for
both write outcomes; with all candidates failing, it exits 1 for both. -/
theorem claim10_write_result_discarded_witness :
    (candSuccess ⟨fun _ => true, fun _ => some uuidA, fun _ => true,
        true⟩ none "d0" = true ∧
      ∀ w : Bool,
        finalExit (daemonLoop ⟨fun _ => true, fun _ => some uuidA,
          fun _ => true, w⟩ none ["d0"]) = some 0) ∧
    ((∀ q ∈ ["d0"], candSuccess ⟨fun _ => false, fun _ => none,
        fun _ => false, true⟩ none q = false) ∧
      ∀ w : Bool,
        finalExit (daemonLoop ⟨fun _ => false, fun _ => none,
          fun _ => false, w⟩ none ["d0"]) = some 1) :=
  ⟨⟨by decide,
    (claim10_write_result_discarded (fun _ => true)
      (fun _ => some uuidA) (fun _ => true) true false none ["d0"] "d0"
      []).2.2.1 (by decide)⟩,
   ⟨by decide,
    (claim10_write_result_discarded (fun _ => false) (fun _ => none)
      (fun _ => false) true false none ["d0"] "d0" []).2.2.2
      (by decide)⟩⟩

end RedoxfsMount
